import Mathlib

/-
Shallow embedding of src/SpaceInvaders/main.cpp.

The embedding models the core simulation and rasterizer of the game:
sprites, the frame buffer and its drawing primitives, the entity state
(aliens, player, bounded bullet pool), the per-type animation clocks,
and one tick of the main loop (animation update, death-counter decay,
bullet update with collision resolution, player movement, bullet fire).

Machine integers: the C code uses size_t and int.  Coordinates and
counters are modelled as Nat; wherever the C code mixes a signed value
into size_t arithmetic (bullet y advance, player movement, the score
increment, the alien recentering subtraction) the result is taken
modulo 2^64 exactly as the hardware does, via wrap64/sizetAdd/sizetSub.
int arithmetic that can overflow (2 * move_dir) is wrapped to 32 bits.
-/

/-- Conversion of an integer to size_t: reduce modulo 2^64 (the literal
is 2^64). -/
def wrap64 (z : Int) : Nat := (z % 18446744073709551616).toNat

/-- size_t addition of a signed offset: `a + z` computed in size_t. -/
def sizetAdd (a : Nat) (z : Int) : Nat := wrap64 ((a : Int) + z)

/-- size_t subtraction `a - b` computed in size_t (wraps below zero). -/
def sizetSub (a b : Nat) : Nat := wrap64 ((a : Int) - (b : Int))

/-- Two's-complement wrap of an integer to the 32-bit int range
(the literals are 2^31 and 2^32). -/
def wrap32 (z : Int) : Int := (z + 2147483648) % 4294967296 - 2147483648

/-- struct Sprite: a binary bitmap mask.  The pixel data is modelled as
a total function from the row-major index; a pixel is set iff the value
is nonzero, exactly as the C code tests `sprite.data[yi*width+xi]`. -/
structure Sprite where
  width : Nat
  height : Nat
  data : Nat → Nat

instance : Inhabited Sprite := ⟨⟨0, 0, fun _ => 0⟩⟩

/-- struct Buffer: the frame buffer.  `data` is the pixel array, again a
total function from the row-major index so that out-of-array writes can
be talked about. -/
structure Buffer where
  width : Nat
  height : Nat
  data : Nat → Nat

/-- struct Bullet. -/
structure Bullet where
  x : Nat
  y : Nat
  dir : Int
  deriving DecidableEq

instance : Inhabited Bullet := ⟨⟨0, 0, 0⟩⟩

/-- struct Alien.  `type` models the uint8_t AlienType field:
0 = ALIEN_DEAD, 1 = ALIEN_TYPE_A, 2 = ALIEN_TYPE_B, 3 = ALIEN_TYPE_C. -/
structure Alien where
  x : Nat
  y : Nat
  type : Nat
  deriving DecidableEq

instance : Inhabited Alien := ⟨⟨0, 0, 0⟩⟩

/-- struct Player. -/
structure Player where
  x : Nat
  y : Nat
  life : Nat
  deriving DecidableEq

/-- struct SpriteAnimation.  The `frames` array of sprite pointers is
modelled as a list of sprites. -/
structure SpriteAnimation where
  loop : Bool
  num_frames : Nat
  frame_duration : Nat
  time : Nat
  frames : List Sprite

instance : Inhabited SpriteAnimation := ⟨⟨false, 0, 0, 0, []⟩⟩

/-- #define MAX_BULLETS 128 -/
def MAX_BULLETS : Nat := 128

/-- const size_t buffer_width = 224 -/
def buffer_width : Nat := 224

/-- const size_t buffer_height = 256 -/
def buffer_height : Nat := 256

def bullet_sprite : Sprite :=
  ⟨1, 3, fun i => [1, 1, 1].getD i 0⟩

def alien_sprite_data_0 : List Nat :=
  [0,0,0,1,1,0,0,0,
   0,0,1,1,1,1,0,0,
   0,1,1,1,1,1,1,0,
   1,1,0,1,1,0,1,1,
   1,1,1,1,1,1,1,1,
   0,1,0,1,1,0,1,0,
   1,0,0,0,0,0,0,1,
   0,1,0,0,0,0,1,0]

def alien_sprite_data_1 : List Nat :=
  [0,0,0,1,1,0,0,0,
   0,0,1,1,1,1,0,0,
   0,1,1,1,1,1,1,0,
   1,1,0,1,1,0,1,1,
   1,1,1,1,1,1,1,1,
   0,0,1,0,0,1,0,0,
   0,1,0,1,1,0,1,0,
   1,0,1,0,0,1,0,1]

def alien_sprite_data_2 : List Nat :=
  [0,0,1,0,0,0,0,0,1,0,0,
   0,0,0,1,0,0,0,1,0,0,0,
   0,0,1,1,1,1,1,1,1,0,0,
   0,1,1,0,1,1,1,0,1,1,0,
   1,1,1,1,1,1,1,1,1,1,1,
   1,0,1,1,1,1,1,1,1,0,1,
   1,0,1,0,0,0,0,0,1,0,1,
   0,0,0,1,1,0,1,1,0,0,0]

def alien_sprite_data_3 : List Nat :=
  [0,0,1,0,0,0,0,0,1,0,0,
   1,0,0,1,0,0,0,1,0,0,1,
   1,0,1,1,1,1,1,1,1,0,1,
   1,1,1,0,1,1,1,0,1,1,1,
   1,1,1,1,1,1,1,1,1,1,1,
   0,1,1,1,1,1,1,1,1,1,0,
   0,0,1,0,0,0,0,0,1,0,0,
   0,1,0,0,0,0,0,0,0,1,0]

def alien_sprite_data_4 : List Nat :=
  [0,0,0,0,1,1,1,1,0,0,0,0,
   0,1,1,1,1,1,1,1,1,1,1,0,
   1,1,1,1,1,1,1,1,1,1,1,1,
   1,1,1,0,0,1,1,0,0,1,1,1,
   1,1,1,1,1,1,1,1,1,1,1,1,
   0,0,0,1,1,0,0,1,1,0,0,0,
   0,0,1,1,0,1,1,0,1,1,0,0,
   1,1,0,0,0,0,0,0,0,0,1,1]

def alien_sprite_data_5 : List Nat :=
  [0,0,0,0,1,1,1,1,0,0,0,0,
   0,1,1,1,1,1,1,1,1,1,1,0,
   1,1,1,1,1,1,1,1,1,1,1,1,
   1,1,1,0,0,1,1,0,0,1,1,1,
   1,1,1,1,1,1,1,1,1,1,1,1,
   0,0,1,1,1,0,0,1,1,1,0,0,
   0,1,1,0,0,1,1,0,0,1,1,0,
   0,0,1,1,0,0,0,0,1,1,0,0]

/-- The Sprite alien_sprites[6] array, indexed 0..5 (two animation
frames per alien type).  Indices beyond 5 are never read by the C code
in a well-defined execution; the model returns the default sprite. -/
def alien_sprites : Nat → Sprite
  | 0 => ⟨8, 8, fun i => alien_sprite_data_0.getD i 0⟩
  | 1 => ⟨8, 8, fun i => alien_sprite_data_1.getD i 0⟩
  | 2 => ⟨11, 8, fun i => alien_sprite_data_2.getD i 0⟩
  | 3 => ⟨11, 8, fun i => alien_sprite_data_3.getD i 0⟩
  | 4 => ⟨12, 8, fun i => alien_sprite_data_4.getD i 0⟩
  | 5 => ⟨12, 8, fun i => alien_sprite_data_5.getD i 0⟩
  | _ + 6 => default

def alien_death_sprite : Sprite :=
  ⟨13, 7, fun i =>
    [0,1,0,0,1,0,0,0,1,0,0,1,0,
     0,0,1,0,0,1,0,1,0,0,1,0,0,
     0,0,0,1,0,0,0,0,0,1,0,0,0,
     1,1,0,0,0,0,0,0,0,0,0,1,1,
     0,0,0,1,0,0,0,0,0,1,0,0,0,
     0,0,1,0,0,1,0,1,0,0,1,0,0,
     0,1,0,0,1,0,0,0,1,0,0,1,0].getD i 0⟩

def player_sprite : Sprite :=
  ⟨11, 7, fun i =>
    [0,0,0,0,0,1,0,0,0,0,0,
     0,0,0,0,1,1,1,0,0,0,0,
     0,0,0,0,1,1,1,0,0,0,0,
     0,1,1,1,1,1,1,1,1,1,0,
     1,1,1,1,1,1,1,1,1,1,1,
     1,1,1,1,1,1,1,1,1,1,1,
     1,1,1,1,1,1,1,1,1,1,1].getD i 0⟩

/-- uint32_t rgb_to_uint32(uint8_t r, uint8_t g, uint8_t b):
`(r << 24) | (g << 16) | (b << 8) | 255`. -/
def rgb_to_uint32 (r g b : Nat) : Nat :=
  (r <<< 24) ||| (g <<< 16) ||| (b <<< 8) ||| 255

/-- bool sprite_overlap_check(...): the axis-aligned bounding-box test
`x_a < x_b + w_b && x_a + w_a > x_b && y_a < y_b + h_b && y_a + h_a > y_b`. -/
def sprite_overlap_check (sp_a : Sprite) (x_a y_a : Nat)
    (sp_b : Sprite) (x_b y_b : Nat) : Bool :=
  decide (x_a < x_b + sp_b.width) && decide (x_a + sp_a.width > x_b) &&
  decide (y_a < y_b + sp_b.height) && decide (y_a + sp_a.height > y_b)

/-- Write one pixel of the frame buffer at row-major index `idx`. -/
def setPixel (b : Buffer) (idx : Nat) (color : Nat) : Buffer :=
  ⟨b.width, b.height, fun j => if j = idx then color else b.data j⟩

/-- The body of the double loop of buffer_draw_sprite for one sprite
pixel `p = (xi, yi)`: if the mask bit is set and the destination pixel
`(x + xi, sprite.height - 1 + y - yi)` is inside the buffer, write
`color` there, else do nothing. -/
def drawPixelStep (s : Sprite) (x y color : Nat) (b : Buffer) (p : Nat × Nat) : Buffer :=
  if s.data (p.2 * s.width + p.1) ≠ 0 ∧
      s.height - 1 + y - p.2 < b.height ∧ x + p.1 < b.width then
    setPixel b ((s.height - 1 + y - p.2) * b.width + (x + p.1)) color
  else
    b

/-- The iteration domain of buffer_draw_sprite's double loop:
`xi` from 0 to width-1 (outer), `yi` from 0 to height-1 (inner). -/
def spritePixelList (s : Sprite) : List (Nat × Nat) :=
  (List.range s.width).flatMap (fun xi => (List.range s.height).map (fun yi => (xi, yi)))

/-- void buffer_draw_sprite(Buffer*, const Sprite&, size_t x, size_t y,
uint32_t color). -/
def buffer_draw_sprite (b : Buffer) (s : Sprite) (x y color : Nat) : Buffer :=
  (spritePixelList s).foldl (drawPixelStep s x y color) b

/-- Whether sprite pixel `p` causes a write of destination index `j`
(set mask bit, in-bounds destination, matching row-major index). -/
def pixelHits (s : Sprite) (x y bw bh j : Nat) (p : Nat × Nat) : Bool :=
  decide (s.data (p.2 * s.width + p.1) ≠ 0 ∧
    s.height - 1 + y - p.2 < bh ∧ x + p.1 < bw ∧
    (s.height - 1 + y - p.2) * bw + (x + p.1) = j)

/-- Whether drawing sprite `s` at `(x, y)` into a `bw × bh` buffer
writes the pixel with row-major index `j`. -/
def coveredBy (s : Sprite) (x y bw bh j : Nat) : Bool :=
  (spritePixelList s).any (pixelHits s x y bw bh j)

/-- A character is drawn by buffer_draw_text iff its glyph index
`c - 32` lies in [0, 65). -/
def charInRange (c : Int) : Bool :=
  decide (0 ≤ c - 32 ∧ c - 32 < 65)

/-- The glyph sub-sprite of the spritesheet for glyph index `idx`
(`sprite.data = text_spritesheet.data + idx * stride`). -/
def glyphSprite (sheet : Sprite) (idx : Nat) : Sprite :=
  ⟨sheet.width, sheet.height, fun i => sheet.data (idx * (sheet.width * sheet.height) + i)⟩

/-- The loop of void buffer_draw_text(...): the text is the list of
char values; `xp` is the cursor.  The cursor is returned alongside the
buffer so the cursor behaviour can be specified.  Note the skip path
(`character < 0 || character >= 65`) performs `continue` and therefore
does NOT advance the cursor. -/
def buffer_draw_text_go (sheet : Sprite) (y color : Nat) :
    List Int → Buffer → Nat → Buffer × Nat
  | [], b, xp => (b, xp)
  | c :: rest, b, xp =>
    let character : Int := c - 32
    if character < 0 ∨ 65 ≤ character then
      buffer_draw_text_go sheet y color rest b xp
    else
      buffer_draw_text_go sheet y color rest
        (buffer_draw_sprite b (glyphSprite sheet character.toNat) xp y color)
        (xp + sheet.width + 1)

/-- void buffer_draw_text(Buffer*, const Sprite&, const char*, size_t x,
size_t y, uint32_t color). -/
def buffer_draw_text (b : Buffer) (sheet : Sprite) (text : List Int)
    (x y color : Nat) : Buffer :=
  (buffer_draw_text_go sheet y color text b x).1

/-- The current animation frame sprite for a non-DEAD alien of the
given type: `animation = alien_animation[type - 1]`,
`current_frame = animation.time / animation.frame_duration`,
`sprite = *animation.frames[current_frame]`. -/
def currentAlienFrame (anims : List SpriteAnimation) (type : Nat) : Sprite :=
  let an := anims.getD (type - 1) default
  an.frames.getD (an.time / an.frame_duration) default

/-- The mutable state threaded through the collision scan over the
aliens for one bullet slot: the bullet backing array, the live pool
size `num`, and the score. -/
structure ScanState where
  bullets : List Bullet
  num : Nat
  score : Nat
  deriving DecidableEq

/-- The effect of a registered hit on the alien and on the scan state:
`score += 10 * (4 - alien.type)` (int arithmetic folded into size_t),
`alien.type = ALIEN_DEAD`,
`alien.x -= (alien_death_sprite.width - alien_sprite.width) / 2`,
and the bullet is removed by swap-with-last
(`bullets[bi] = bullets[num_bullets - 1]; num_bullets--`). -/
def resolveHit (bi : Nat) (frame : Sprite) (a : Alien) (s : ScanState) : Alien × ScanState :=
  (⟨sizetSub a.x (sizetSub alien_death_sprite.width frame.width / 2), a.y, 0⟩,
   ⟨s.bullets.set bi (s.bullets.getD (s.num - 1) default), s.num - 1,
    sizetAdd s.score (10 * (4 - (a.type : Int)))⟩)

/-- The inner `for (ai...)` loop of the bullet update: scan the aliens
in order for the bullet currently in slot `bi`.  DEAD aliens are
skipped; the bullet coordinates are re-read from the (possibly already
swapped) slot on every iteration, exactly as the C code reads
`game.bullets[bi]` afresh. -/
def scanAliens (anims : List SpriteAnimation) (bi : Nat) :
    List Alien → ScanState → List Alien × ScanState
  | [], s => ([], s)
  | a :: rest, s =>
    if a.type = 0 then
      let r := scanAliens anims bi rest s
      (a :: r.1, r.2)
    else
      let frame := currentAlienFrame anims a.type
      let b := s.bullets.getD bi default
      if sprite_overlap_check bullet_sprite b.x b.y frame a.x a.y then
        let h := resolveHit bi frame a s
        let r := scanAliens anims bi rest h.2
        (h.1 :: r.1, r.2)
      else
        let r := scanAliens anims bi rest s
        (a :: r.1, r.2)

/-- The result of the bullet-update phase. -/
structure SimResult where
  bullets : List Bullet
  num : Nat
  aliens : List Alien
  score : Nat

/-- One bullet advanced by its direction: `bullets[bi].y += bullets[bi].dir`
in size_t arithmetic. -/
def advanceBullet (b : Bullet) : Bullet :=
  ⟨b.x, sizetAdd b.y b.dir, b.dir⟩

/-- The outer `for (bi...)` loop of the bullet update.  `fuel` is a
structural bound on the number of iterations: every iteration either
decrements `num` (keeping `bi`) or increments `bi` (never increasing
`num`), so `num - bi` decreases and an initial fuel of `num` always
suffices. -/
def updateBulletsGo (anims : List SpriteAnimation) :
    Nat → List Bullet → Nat → List Alien → Nat → Nat → SimResult
  | 0, bullets, num, aliens, score, _ => ⟨bullets, num, aliens, score⟩
  | fuel + 1, bullets, num, aliens, score, bi =>
    if bi < num then
      let b' := advanceBullet (bullets.getD bi default)
      let bullets1 := bullets.set bi b'
      if buffer_height ≤ b'.y ∨ b'.y < bullet_sprite.height then
        updateBulletsGo anims fuel
          (bullets1.set bi (bullets1.getD (num - 1) default)) (num - 1) aliens score bi
      else
        let r := scanAliens anims bi aliens ⟨bullets1, num, score⟩
        updateBulletsGo anims fuel r.2.bullets r.2.num r.1 r.2.score (bi + 1)
    else ⟨bullets, num, aliens, score⟩

/-- The whole bullet-update phase (advance, bounds removal, collision
scan) of one tick of the game loop. -/
def updateBullets (anims : List SpriteAnimation) (bullets : List Bullet)
    (num : Nat) (aliens : List Alien) (score : Nat) : SimResult :=
  updateBulletsGo anims num bullets num aliens score 0

/-- The player-movement step of one tick:
`player_move_dir = 2 * move_dir` (int arithmetic), then clamp against
the right edge (`player.x + player_sprite.width + player_move_dir >=
game.width`, size_t arithmetic), the left edge
(`(int)player.x + player_move_dir <= 0`), or add the displacement. -/
def playerMoveStep (x : Nat) (move_dir : Int) : Nat :=
  let player_move_dir : Int := wrap32 (2 * move_dir)
  if player_move_dir = 0 then x
  else if buffer_width ≤ sizetAdd (x + player_sprite.width) player_move_dir then
    buffer_width - player_sprite.width
  else if (x : Int) + player_move_dir ≤ 0 then 0
  else sizetAdd x player_move_dir

/-- The whole mutable simulation state of the game loop: the Game
struct (backing bullet array of MAX_BULLETS slots, live pool size,
aliens, player) together with the separate variables `score`,
`death_counters[]` and `alien_animation[3]`. -/
structure GameState where
  bullets : List Bullet
  num_bullets : Nat
  aliens : List Alien
  score : Nat
  player : Player
  death_counters : List Nat
  alien_animation : List SpriteAnimation

/-- The fire step of one tick: `if (fire_pressed && num_bullets <
MAX_BULLETS)` spawn a bullet at `(player.x + player_sprite.width / 2,
player.y + player_sprite.height)` with direction +2. -/
def fireStep (g : GameState) (fire_pressed : Bool) : GameState :=
  if fire_pressed ∧ g.num_bullets < MAX_BULLETS then
    { g with
      bullets := g.bullets.set g.num_bullets
        ⟨g.player.x + player_sprite.width / 2, g.player.y + player_sprite.height, 2⟩,
      num_bullets := g.num_bullets + 1 }
  else g

/-- The per-tick animation update for one clock: `time++`, and wrap to 0
when `time == num_frames * frame_duration`. -/
def animStepA (a : SpriteAnimation) : SpriteAnimation :=
  { a with time := if a.time + 1 = a.num_frames * a.frame_duration then 0 else a.time + 1 }

/-- The death-counter decrement phase: for every alien index, if the
alien is DEAD and its counter is nonzero, decrement the counter. -/
def decCounters (aliens : List Alien) (counters : List Nat) : List Nat :=
  List.zipWith (fun (a : Alien) (c : Nat) => if a.type = 0 ∧ c ≠ 0 then c - 1 else c)
    aliens counters

/-- One tick of the game loop (the state-mutating phases, in source
order: animation update, death-counter decrement, bullet update with
collision resolution, player movement, bullet fire).  The returned Bool
is the fire_pressed flag after the tick: the loop ends with
`fire_pressed = false` unconditionally. -/
def tick (s : GameState) (move_dir : Int) (fire_pressed : Bool) : GameState × Bool :=
  let anims := s.alien_animation.map animStepA
  let counters := decCounters s.aliens s.death_counters
  let r := updateBullets anims s.bullets s.num_bullets s.aliens s.score
  let px := playerMoveStep s.player.x move_dir
  let s1 : GameState :=
    { bullets := r.bullets, num_bullets := r.num, aliens := r.aliens, score := r.score,
      player := ⟨px, s.player.y, s.player.life⟩,
      death_counters := counters, alien_animation := anims }
  (fireStep s1 fire_pressed, false)

/-- Run the game loop over a list of per-tick input snapshots
(move_dir accumulator value, fire_pressed flag). -/
def simulate (s : GameState) (inputs : List (Int × Bool)) : GameState :=
  inputs.foldl (fun st p => (tick st p.1 p.2).1) s

/-- The alien grid initialization: 5 rows of 11 columns,
`type = (5 - yi) / 2 + 1`,
`x = 16 * xi + 20 + (alien_death_sprite.width - sprite.width) / 2`
(where sprite is the first animation frame of the row's type),
`y = 17 * yi + 128`; the alien at array index `yi * 11 + xi`. -/
def initAliens : List Alien :=
  (List.range 5).flatMap (fun yi =>
    (List.range 11).map (fun xi =>
      let type := (5 - yi) / 2 + 1
      let sprite := alien_sprites (2 * (type - 1))
      ⟨16 * xi + 20 + (alien_death_sprite.width - sprite.width) / 2, 17 * yi + 128, type⟩))

/-- The SpriteAnimation alien_animation[3] initialization: each clock
loops, has 2 frames of duration 10, starts at time 0, and its frames
are alien_sprites[2i] and alien_sprites[2i+1]. -/
def initAnimations : List SpriteAnimation :=
  (List.range 3).map (fun i => ⟨true, 2, 10, 0, [alien_sprites (2 * i), alien_sprites (2 * i + 1)]⟩)

/-- The initial game state: empty bullet pool (the C backing array is
uninitialized memory; inactive slots are modelled as the default bullet
and are never read while inactive), the 55-alien grid, player at
(112 - 5, 32) with 3 lives, score 0, all death counters 10. -/
def initGame : GameState :=
  { bullets := List.replicate MAX_BULLETS default
  , num_bullets := 0
  , aliens := initAliens
  , score := 0
  , player := ⟨112 - 5, 32, 3⟩
  , death_counters := List.replicate 55 10
  , alien_animation := initAnimations }

/-- The alien draw loop of one frame: for every alien index, skip it if
its death counter is zero; otherwise draw the death sprite (DEAD) or
the current animation frame at the alien's position. -/
def draw_aliens (anims : List SpriteAnimation) (aliens : List Alien)
    (counters : List Nat) (b : Buffer) : Buffer :=
  (aliens.zip counters).foldl
    (fun buf p =>
      if p.2 = 0 then buf
      else if p.1.type = 0 then
        buffer_draw_sprite buf alien_death_sprite p.1.x p.1.y (rgb_to_uint32 255 165 0)
      else
        buffer_draw_sprite buf (currentAlienFrame anims p.1.type) p.1.x p.1.y
          (rgb_to_uint32 210 0 0))
    b

/-- A bullet kept by the bullet-update phase in the absence of
collisions: advanced by its direction, and removed exactly when the
advanced y leaves [bullet_sprite.height, buffer_height). -/
def keepAdv (b : Bullet) : Option Bullet :=
  let b' := advanceBullet b
  if buffer_height ≤ b'.y ∨ b'.y < bullet_sprite.height then none else some b'

/-- Bullet `b` overlaps no live alien of `aliens` (at the alien's
current animation frame). -/
def noHit (anims : List SpriteAnimation) (aliens : List Alien) (b : Bullet) : Prop :=
  ∀ a ∈ aliens, a.type ≠ 0 →
    sprite_overlap_check bullet_sprite b.x b.y (currentAlienFrame anims a.type) a.x a.y = false

instance (anims : List SpriteAnimation) (aliens : List Alien) (b : Bullet) :
    Decidable (noHit anims aliens b) := by
  unfold noHit
  infer_instance

theorem wrap64_eq_of_range {z : Int} (h0 : 0 ≤ z) (h1 : z < 18446744073709551616) :
    (wrap64 z : Int) = z := by
  unfold wrap64
  rw [Int.emod_eq_of_lt h0 h1, Int.toNat_of_nonneg h0]

theorem sizetAdd_eq_of_range (a : Nat) (z : Int) (h0 : 0 ≤ (a : Int) + z)
    (h1 : (a : Int) + z < 18446744073709551616) :
    (sizetAdd a z : Int) = (a : Int) + z := by
  unfold sizetAdd
  exact wrap64_eq_of_range h0 h1

theorem sizetAdd_nat (a k : Nat) (h : a + k < 18446744073709551616) :
    sizetAdd a (k : Int) = a + k := by
  have h0 : (0 : Int) ≤ (a : Int) + (k : Int) := by positivity
  have h1 : (a : Int) + (k : Int) < 18446744073709551616 := by exact_mod_cast h
  have := sizetAdd_eq_of_range a k h0 h1
  omega

theorem sizetSub_eq (a b : Nat) (hb : b ≤ a) (ha : a < 18446744073709551616) :
    sizetSub a b = a - b := by
  unfold sizetSub
  have h0 : (0 : Int) ≤ (a : Int) - (b : Int) := by omega
  have h1 : (a : Int) - (b : Int) < 18446744073709551616 := by omega
  have := wrap64_eq_of_range h0 h1
  omega

theorem wrap32_bounds (z : Int) : -2147483648 ≤ wrap32 z ∧ wrap32 z < 2147483648 := by
  unfold wrap32
  have h0 := Int.emod_nonneg (z + 2147483648) (by decide : (4294967296 : Int) ≠ 0)
  have h1 := Int.emod_lt_of_pos (z + 2147483648) (by decide : (0 : Int) < 4294967296)
  omega

theorem list_getD_set_self {α : Type} [Inhabited α] (l : List α) (i : Nat) (b : α)
    (h : i < l.length) : (l.set i b).getD i default = b := by
  induction l generalizing i with
  | nil => simp at h
  | cons a t ih =>
    cases i with
    | zero => rfl
    | succ j => simpa using ih j (by simpa using h)

theorem list_getD_set_other {α : Type} [Inhabited α] (l : List α) (i j : Nat) (b : α)
    (h : i ≠ j) : (l.set i b).getD j default = l.getD j default := by
  induction l generalizing i j with
  | nil => simp [List.set]
  | cons a t ih =>
    cases i with
    | zero =>
      cases j with
      | zero => exact absurd rfl h
      | succ k => rfl
    | succ i' =>
      cases j with
      | zero => rfl
      | succ k => simpa using ih i' k (by omega)

theorem list_take_set_ge {α : Type} (l : List α) (i k : Nat) (b : α) (h : k ≤ i) :
    (l.set i b).take k = l.take k := by
  induction l generalizing i k with
  | nil => simp [List.set]
  | cons a t ih =>
    cases i with
    | zero =>
      have : k = 0 := by omega
      simp [this]
    | succ i' =>
      cases k with
      | zero => simp
      | succ k' => simpa using ih i' k' (by omega)

theorem list_take_succ_set {α : Type} [Inhabited α] (l : List α) (i : Nat) (b : α)
    (h : i < l.length) : (l.set i b).take (i + 1) = l.take i ++ [b] := by
  induction l generalizing i with
  | nil => simp at h
  | cons a t ih =>
    cases i with
    | zero => simp
    | succ i' => simpa using ih i' (by simpa using h)

theorem list_drop_set_lt {α : Type} (l : List α) (i k : Nat) (b : α) (h : i < k) :
    (l.set i b).drop k = l.drop k := by
  induction l generalizing i k with
  | nil => simp [List.set]
  | cons a t ih =>
    cases i with
    | zero =>
      cases k with
      | zero => omega
      | succ k' => simp
    | succ i' =>
      cases k with
      | zero => omega
      | succ k' => simpa using ih i' k' (by omega)

theorem list_drop_getD_cons {α : Type} [Inhabited α] (l : List α) (i : Nat)
    (h : i < l.length) : l.drop i = l.getD i default :: l.drop (i + 1) := by
  induction l generalizing i with
  | nil => simp at h
  | cons a t ih =>
    cases i with
    | zero => simp
    | succ i' => simpa using ih i' (by simpa using h)

theorem list_getD_drop {α : Type} [Inhabited α] (l : List α) (m k : Nat) :
    (l.drop m).getD k default = l.getD (m + k) default := by
  induction l generalizing m with
  | nil => simp
  | cons a t ih =>
    cases m with
    | zero => simp
    | succ m' =>
      have h1 := ih m'
      have h2 : m' + 1 + k = (m' + k) + 1 := by omega
      rw [List.drop_succ_cons, h1, h2, List.getD_cons_succ]

theorem list_take_succ_getD {α : Type} [Inhabited α] (l : List α) (k : Nat)
    (h : k < l.length) : l.take (k + 1) = l.take k ++ [l.getD k default] := by
  induction l generalizing k with
  | nil => simp at h
  | cons a t ih =>
    cases k with
    | zero => simp
    | succ k' => simpa using ih k' (by simpa using h)

theorem scanAliens_num_le (anims : List SpriteAnimation) (bi : Nat) :
    ∀ (as : List Alien) (s : ScanState), (scanAliens anims bi as s).2.num ≤ s.num := by
  intro as
  induction as with
  | nil => intro s; simp [scanAliens]
  | cons a rest ih =>
    intro s
    simp only [scanAliens]
    split
    · exact ih s
    · split
      · dsimp only
        have h1 := ih (resolveHit bi (currentAlienFrame anims a.type) a s).2
        have h2 : (resolveHit bi (currentAlienFrame anims a.type) a s).2.num = s.num - 1 := rfl
        omega
      · exact ih s

theorem scanAliens_length (anims : List SpriteAnimation) (bi : Nat) :
    ∀ (as : List Alien) (s : ScanState), (scanAliens anims bi as s).1.length = as.length := by
  intro as
  induction as with
  | nil => intro s; simp [scanAliens]
  | cons a rest ih =>
    intro s
    simp only [scanAliens]
    split
    · simpa using ih s
    · split
      · simpa using ih (resolveHit bi (currentAlienFrame anims a.type) a s).2
      · simpa using ih s

theorem scanAliens_dead (anims : List SpriteAnimation) (bi : Nat) :
    ∀ (as : List Alien) (s : ScanState) (i : Nat),
      (as.getD i default).type = 0 →
      (scanAliens anims bi as s).1.getD i default = as.getD i default := by
  intro as
  induction as with
  | nil => intro s i _; simp [scanAliens]
  | cons a rest ih =>
    intro s i hdead
    simp only [scanAliens]
    split
    · cases i with
      | zero => rfl
      | succ j => simpa using ih s j (by simpa using hdead)
    · rename_i hne
      cases i with
      | zero => exact absurd (by simpa using hdead) hne
      | succ j =>
        split
        · simpa using ih (resolveHit bi (currentAlienFrame anims a.type) a s).2 j
            (by simpa using hdead)
        · simpa using ih s j (by simpa using hdead)

theorem scanAliens_no_hit (anims : List SpriteAnimation) (bi : Nat) :
    ∀ (as : List Alien) (s : ScanState),
      noHit anims as (s.bullets.getD bi default) →
      scanAliens anims bi as s = (as, s) := by
  intro as
  induction as with
  | nil => intro s _; simp [scanAliens]
  | cons a rest ih =>
    intro s hnh
    simp only [scanAliens]
    split
    · rw [ih s (fun x hx => hnh x (List.mem_cons_of_mem a hx))]
    · rename_i hne
      have hov := hnh a (List.mem_cons_self a rest) hne
      rw [hov]
      rw [if_neg (by decide : ¬ (false = true))]
      rw [ih s (fun x hx => hnh x (List.mem_cons_of_mem a hx))]

theorem updateBulletsGo_num_le (anims : List SpriteAnimation) :
    ∀ (fuel : Nat) (bullets : List Bullet) (num : Nat) (aliens : List Alien)
      (score bi : Nat),
      (updateBulletsGo anims fuel bullets num aliens score bi).num ≤ num := by
  intro fuel
  induction fuel with
  | zero => intro bullets num aliens score bi; simp [updateBulletsGo]
  | succ f ih =>
    intro bullets num aliens score bi
    simp only [updateBulletsGo]
    split
    · split
      · have := ih ((bullets.set bi (advanceBullet (bullets.getD bi default))).set bi
          ((bullets.set bi (advanceBullet (bullets.getD bi default))).getD (num - 1) default))
          (num - 1) aliens score bi
        omega
      · have h1 := ih (scanAliens anims bi aliens
          ⟨bullets.set bi (advanceBullet (bullets.getD bi default)), num, score⟩).2.bullets
          (scanAliens anims bi aliens
            ⟨bullets.set bi (advanceBullet (bullets.getD bi default)), num, score⟩).2.num
          (scanAliens anims bi aliens
            ⟨bullets.set bi (advanceBullet (bullets.getD bi default)), num, score⟩).1
          (scanAliens anims bi aliens
            ⟨bullets.set bi (advanceBullet (bullets.getD bi default)), num, score⟩).2.score
          (bi + 1)
        have h2 := scanAliens_num_le anims bi aliens
          ⟨bullets.set bi (advanceBullet (bullets.getD bi default)), num, score⟩
        dsimp only at h2
        omega
    · exact Nat.le_refl num

theorem updateBulletsGo_aliens (anims : List SpriteAnimation) :
    ∀ (fuel : Nat) (bullets : List Bullet) (num : Nat) (aliens : List Alien)
      (score bi : Nat),
      (updateBulletsGo anims fuel bullets num aliens score bi).aliens.length = aliens.length ∧
      ∀ i, (aliens.getD i default).type = 0 →
        (updateBulletsGo anims fuel bullets num aliens score bi).aliens.getD i default
          = aliens.getD i default := by
  intro fuel
  induction fuel with
  | zero =>
    intro bullets num aliens score bi
    exact ⟨rfl, fun i _ => rfl⟩
  | succ f ih =>
    intro bullets num aliens score bi
    simp only [updateBulletsGo]
    split
    · split
      · exact ih _ (num - 1) aliens score bi
      · set st := scanAliens anims bi aliens
          ⟨bullets.set bi (advanceBullet (bullets.getD bi default)), num, score⟩ with hst
        have hlen := scanAliens_length anims bi aliens
          ⟨bullets.set bi (advanceBullet (bullets.getD bi default)), num, score⟩
        have hdead := scanAliens_dead anims bi aliens
          ⟨bullets.set bi (advanceBullet (bullets.getD bi default)), num, score⟩
        have hrec := ih st.2.bullets st.2.num st.1 st.2.score (bi + 1)
        refine ⟨by rw [hrec.1, ← hst] at *; omega, ?_⟩
        intro i hi
        have h1 : (st.1.getD i default) = aliens.getD i default := hdead i hi
        have h2 := hrec.2 i (by rw [h1]; exact hi)
        rw [h2, h1]
    · exact ⟨rfl, fun i _ => rfl⟩

theorem updateBulletsGo_no_collision (anims : List SpriteAnimation) (aliens : List Alien) :
    ∀ (fuel : Nat) (bullets : List Bullet) (num bi score : Nat),
      num - bi ≤ fuel → bi ≤ num → num ≤ bullets.length →
      (∀ j, bi ≤ j → j < num → noHit anims aliens (advanceBullet (bullets.getD j default))) →
      (updateBulletsGo anims fuel bullets num aliens score bi).aliens = aliens ∧
      (updateBulletsGo anims fuel bullets num aliens score bi).score = score ∧
      List.Perm
        ((updateBulletsGo anims fuel bullets num aliens score bi).bullets.take
          (updateBulletsGo anims fuel bullets num aliens score bi).num)
        (bullets.take bi ++ ((bullets.drop bi).take (num - bi)).filterMap keepAdv) := by
  intro fuel
  induction fuel with
  | zero =>
    intro bullets num bi score hfuel hbi hlen _
    have hbe : bi = num := by omega
    subst hbe
    refine ⟨rfl, rfl, ?_⟩
    simp only [updateBulletsGo, Nat.sub_self, List.take_zero, List.filterMap_nil,
      List.append_nil]
    exact List.Perm.refl _
  | succ f ih =>
    intro bullets num bi score hfuel hbi hlen hnc
    simp only [updateBulletsGo]
    by_cases h : bi < num
    · rw [if_pos h]
      set b' := advanceBullet (bullets.getD bi default) with hb'def
      set bullets1 := bullets.set bi b' with hb1def
      by_cases hout : buffer_height ≤ b'.y ∨ b'.y < bullet_sprite.height
      · rw [if_pos hout]
        set bullets2 := bullets1.set bi (bullets1.getD (num - 1) default) with hb2def
        have hlen1 : bullets1.length = bullets.length := by
          rw [hb1def]; simp
        have hlen2 : bullets2.length = bullets.length := by
          rw [hb2def]; simp [hlen1]
        have hnc2 : ∀ j, bi ≤ j → j < num - 1 →
            noHit anims aliens (advanceBullet (bullets2.getD j default)) := by
          intro j hj1 hj2
          by_cases hj : j = bi
          · subst hj
            have e1 : bullets2.getD j default = bullets1.getD (num - 1) default := by
              rw [hb2def]; exact list_getD_set_self _ _ _ (by omega)
            have e2 : bullets1.getD (num - 1) default = bullets.getD (num - 1) default := by
              rw [hb1def]; exact list_getD_set_other _ _ _ _ (by omega)
            rw [e1, e2]
            exact hnc (num - 1) (by omega) (by omega)
          · have e1 : bullets2.getD j default = bullets1.getD j default := by
              rw [hb2def]; exact list_getD_set_other _ _ _ _ (by omega)
            have e2 : bullets1.getD j default = bullets.getD j default := by
              rw [hb1def]; exact list_getD_set_other _ _ _ _ (by omega)
            rw [e1, e2]
            exact hnc j hj1 (by omega)
        obtain ⟨ha, hs, hp⟩ := ih bullets2 (num - 1) bi score (by omega) (by omega)
          (by omega) hnc2
        refine ⟨ha, hs, hp.trans ?_⟩
        have hpre : bullets2.take bi = bullets.take bi := by
          rw [hb2def, list_take_set_ge _ _ _ _ (Nat.le_refl bi), hb1def,
            list_take_set_ge _ _ _ _ (Nat.le_refl bi)]
        rw [hpre]
        apply List.Perm.append_left
        have hkeep0 : keepAdv (bullets.getD bi default) = none := by
          simp only [keepAdv, ← hb'def]
          rw [if_pos hout]
        have hrhs : (bullets.drop bi).take (num - bi)
            = bullets.getD bi default :: (bullets.drop (bi + 1)).take (num - bi - 1) := by
          rw [list_drop_getD_cons bullets bi (by omega)]
          generalize hk : num - bi - 1 = k
          have e : num - bi = k + 1 := by omega
          rw [e, List.take_succ_cons]
        rw [hrhs, List.filterMap_cons_none hkeep0]
        by_cases hend : bi = num - 1
        · have h1 : num - 1 - bi = 0 := by omega
          have h2 : num - bi - 1 = 0 := by omega
          rw [h1, h2]
          simp
        · have hlt : bi < num - 1 := by omega
          have hd2 : bullets2.getD bi default = bullets.getD (num - 1) default := by
            rw [hb2def, list_getD_set_self _ _ _ (by omega), hb1def,
              list_getD_set_other _ _ _ _ (by omega)]
          have hdrop2 : bullets2.drop (bi + 1) = bullets.drop (bi + 1) := by
            rw [hb2def, list_drop_set_lt _ _ _ _ (by omega), hb1def,
              list_drop_set_lt _ _ _ _ (by omega)]
          have hlhs : (bullets2.drop bi).take (num - 1 - bi)
              = bullets.getD (num - 1) default
                :: (bullets.drop (bi + 1)).take (num - 1 - bi - 1) := by
            rw [list_drop_getD_cons bullets2 bi (by omega), hd2, hdrop2]
            generalize hk : num - 1 - bi - 1 = k
            have e : num - 1 - bi = k + 1 := by omega
            rw [e, List.take_succ_cons]
          rw [hlhs]
          have hlen3 : num - bi - 2 < (bullets.drop (bi + 1)).length := by
            simp only [List.length_drop]; omega
          have hsnoc : (bullets.drop (bi + 1)).take (num - bi - 1)
              = (bullets.drop (bi + 1)).take (num - bi - 2)
                ++ [(bullets.drop (bi + 1)).getD (num - bi - 2) default] := by
            have e : num - bi - 1 = (num - bi - 2) + 1 := by omega
            rw [e, list_take_succ_getD _ _ hlen3]
          have hidx : (bullets.drop (bi + 1)).getD (num - bi - 2) default
              = bullets.getD (num - 1) default := by
            rw [list_getD_drop]
            congr 1
            omega
          have heq : num - 1 - bi - 1 = num - bi - 2 := by omega
          rw [hsnoc, hidx, heq]
          exact (List.perm_append_singleton _ _).filterMap keepAdv |>.symm
      · rw [if_neg hout]
        have hbib : bullets1.getD bi default = b' := by
          rw [hb1def]; exact list_getD_set_self _ _ _ (by omega)
        have hscan : scanAliens anims bi aliens ⟨bullets1, num, score⟩
            = (aliens, ⟨bullets1, num, score⟩) := by
          apply scanAliens_no_hit
          show noHit anims aliens (bullets1.getD bi default)
          rw [hbib, hb'def]
          exact hnc bi (Nat.le_refl bi) h
        rw [hscan]
        have hnc1 : ∀ j, bi + 1 ≤ j → j < num →
            noHit anims aliens (advanceBullet (bullets1.getD j default)) := by
          intro j hj1 hj2
          have e : bullets1.getD j default = bullets.getD j default := by
            rw [hb1def]; exact list_getD_set_other _ _ _ _ (by omega)
          rw [e]
          exact hnc j (by omega) hj2
        obtain ⟨ha, hs, hp⟩ := ih bullets1 num (bi + 1) score (by omega) (by omega)
          (by rw [hb1def]; simp only [List.length_set]; omega) hnc1
        refine ⟨ha, hs, ?_⟩
        have e1 : bullets1.take (bi + 1) = bullets.take bi ++ [b'] := by
          rw [hb1def]; exact list_take_succ_set _ _ _ (by omega)
        have e2 : bullets1.drop (bi + 1) = bullets.drop (bi + 1) := by
          rw [hb1def]; exact list_drop_set_lt _ _ _ _ (by omega)
        rw [e1, e2] at hp
        have hkeep : keepAdv (bullets.getD bi default) = some b' := by
          simp only [keepAdv, ← hb'def]
          rw [if_neg hout]
        have hrhs : (bullets.drop bi).take (num - bi)
            = bullets.getD bi default :: (bullets.drop (bi + 1)).take (num - (bi + 1)) := by
          rw [list_drop_getD_cons bullets bi (by omega)]
          have e : num - bi = (num - (bi + 1)) + 1 := by omega
          rw [e, List.take_succ_cons]
        rw [hrhs, List.filterMap_cons_some hkeep]
        rw [List.append_assoc, List.singleton_append] at hp
        exact hp
    · rw [if_neg h]
      have hbe : bi = num := by omega
      subst hbe
      refine ⟨rfl, rfl, ?_⟩
      simp only [Nat.sub_self, List.take_zero, List.filterMap_nil, List.append_nil]
      exact List.Perm.refl _

theorem draw_fold_spec (s : Sprite) (x y c : Nat) :
    ∀ (L : List (Nat × Nat)) (b : Buffer),
      (L.foldl (drawPixelStep s x y c) b).width = b.width ∧
      (L.foldl (drawPixelStep s x y c) b).height = b.height ∧
      ∀ j, (L.foldl (drawPixelStep s x y c) b).data j
        = if L.any (pixelHits s x y b.width b.height j) then c else b.data j := by
  intro L
  induction L with
  | nil =>
    intro b
    exact ⟨rfl, rfl, fun j => by simp⟩
  | cons p L ih =>
    intro b
    obtain ⟨ihw, ihh, ihd⟩ := ih (drawPixelStep s x y c b p)
    have hw : (drawPixelStep s x y c b p).width = b.width := by
      unfold drawPixelStep; split <;> rfl
    have hh : (drawPixelStep s x y c b p).height = b.height := by
      unfold drawPixelStep; split <;> rfl
    rw [hw, hh] at ihd
    refine ⟨by rw [List.foldl_cons, ihw, hw], by rw [List.foldl_cons, ihh, hh], ?_⟩
    intro j
    rw [List.foldl_cons, ihd j, List.any_cons]
    by_cases hany : L.any (pixelHits s x y b.width b.height j) = true
    · simp [hany]
    · simp only [Bool.not_eq_true] at hany
      rw [hany, Bool.or_false]
      rw [if_neg (by simp [hany])]
      by_cases hit : pixelHits s x y b.width b.height j p = true
      · rw [if_pos hit]
        simp only [pixelHits, decide_eq_true_eq] at hit
        obtain ⟨h1, h2, h3, h4⟩ := hit
        unfold drawPixelStep
        rw [if_pos ⟨h1, h2, h3⟩]
        simp [setPixel, h4]
      · rw [if_neg hit]
        simp only [Bool.not_eq_true] at hit
        by_cases hcond : s.data (p.2 * s.width + p.1) ≠ 0 ∧
            s.height - 1 + y - p.2 < b.height ∧ x + p.1 < b.width
        · have hne : (s.height - 1 + y - p.2) * b.width + (x + p.1) ≠ j := by
            intro he
            have hp : pixelHits s x y b.width b.height j p = true := by
              simp only [pixelHits, decide_eq_true_eq]
              exact ⟨hcond.1, hcond.2.1, hcond.2.2, he⟩
            rw [hp] at hit
            exact absurd hit (by decide)
          unfold drawPixelStep
          rw [if_pos hcond]
          show (if j = (s.height - 1 + y - p.2) * b.width + (x + p.1) then c else b.data j)
            = b.data j
          rw [if_neg (fun he => hne he.symm)]
        · unfold drawPixelStep
          rw [if_neg hcond]

theorem coveredBy_out (s : Sprite) (x y bw bh j : Nat) (hj : bw * bh ≤ j) :
    coveredBy s x y bw bh j = false := by
  rw [coveredBy, List.any_eq_false]
  intro p _
  simp only [pixelHits, decide_eq_true_eq, not_and]
  intro _ h2 h3 h4
  have hrow : (s.height - 1 + y - p.2) * bw + (x + p.1) < bh * bw := by
    calc (s.height - 1 + y - p.2) * bw + (x + p.1)
        < (s.height - 1 + y - p.2) * bw + bw := by omega
      _ = (s.height - 1 + y - p.2 + 1) * bw := by ring
      _ ≤ bh * bw := Nat.mul_le_mul_right bw (by omega)
  rw [Nat.mul_comm bh bw] at hrow
  omega

theorem draw_text_go_spec (sheet : Sprite) (y color : Nat) :
    ∀ (text : List Int) (b : Buffer) (xp : Nat),
      buffer_draw_text_go sheet y color text b xp
        = buffer_draw_text_go sheet y color (text.filter charInRange) b xp ∧
      (buffer_draw_text_go sheet y color text b xp).2
        = xp + (sheet.width + 1) * (text.filter charInRange).length := by
  intro text
  induction text with
  | nil => intro b xp; simp [buffer_draw_text_go]
  | cons ch rest ih =>
    intro b xp
    by_cases hsk : ch - 32 < 0 ∨ 65 ≤ ch - 32
    · have hc : charInRange ch = false := by
        simp only [charInRange, decide_eq_false_iff_not]
        omega
      simp only [buffer_draw_text_go, if_pos hsk, List.filter_cons, hc]
      exact ih b xp
    · have hc : charInRange ch = true := by
        simp only [charInRange, decide_eq_true_eq]
        omega
      simp only [buffer_draw_text_go, if_neg hsk, List.filter_cons, hc, if_pos rfl]
      obtain ⟨ih1, ih2⟩ := ih
        (buffer_draw_sprite b (glyphSprite sheet (ch - 32).toNat) xp y color)
        (xp + sheet.width + 1)
      refine ⟨ih1, ?_⟩
      rw [ih2]
      have hlc : (ch :: rest.filter charInRange).length = (rest.filter charInRange).length + 1 :=
        List.length_cons ch _
      rw [if_pos trivial, hlc, Nat.mul_succ]
      omega

theorem draw_aliens_skip (anims : List SpriteAnimation) :
    ∀ (as : List Alien) (cs : List Nat) (i : Nat), i < as.length → i < cs.length →
      cs.getD i 0 = 0 →
      ∀ b, draw_aliens anims as cs b
        = draw_aliens anims (as.eraseIdx i) (cs.eraseIdx i) b := by
  intro as
  induction as with
  | nil => intro cs i hi; simp at hi
  | cons a as' ih =>
    intro cs i hi hci hc0 b
    cases cs with
    | nil => simp at hci
    | cons c cs' =>
      cases i with
      | zero =>
        have hc : c = 0 := by simpa using hc0
        subst hc
        simp [draw_aliens]
      | succ i' =>
        have h1 : i' < as'.length := by simpa using hi
        have h2 : i' < cs'.length := by simpa using hci
        have h3 : cs'.getD i' 0 = 0 := by simpa using hc0
        simp only [draw_aliens, List.zip_cons_cons, List.foldl_cons, List.eraseIdx_cons_succ]
        exact ih cs' i' h1 h2 h3 _

theorem fireStep_player (g : GameState) (f : Bool) : (fireStep g f).player = g.player := by
  unfold fireStep; split <;> rfl

theorem fireStep_aliens (g : GameState) (f : Bool) : (fireStep g f).aliens = g.aliens := by
  unfold fireStep; split <;> rfl

theorem fireStep_counters (g : GameState) (f : Bool) :
    (fireStep g f).death_counters = g.death_counters := by
  unfold fireStep; split <;> rfl

theorem fireStep_score (g : GameState) (f : Bool) : (fireStep g f).score = g.score := by
  unfold fireStep; split <;> rfl

theorem tick_player (s : GameState) (md : Int) (f : Bool) :
    (tick s md f).1.player
      = ⟨playerMoveStep s.player.x md, s.player.y, s.player.life⟩ := by
  simp only [tick]
  rw [fireStep_player]

theorem tick_counters (s : GameState) (md : Int) (f : Bool) :
    (tick s md f).1.death_counters = decCounters s.aliens s.death_counters := by
  simp only [tick]
  rw [fireStep_counters]

theorem tick_aliens_len (s : GameState) (md : Int) (f : Bool) :
    (tick s md f).1.aliens.length = s.aliens.length := by
  simp only [tick]
  rw [fireStep_aliens]
  exact (updateBulletsGo_aliens (s.alien_animation.map animStepA) s.num_bullets
    s.bullets s.num_bullets s.aliens s.score 0).1

theorem tick_aliens_dead (s : GameState) (md : Int) (f : Bool) (i : Nat)
    (hd : (s.aliens.getD i default).type = 0) :
    (tick s md f).1.aliens.getD i default = s.aliens.getD i default := by
  simp only [tick]
  rw [fireStep_aliens]
  exact (updateBulletsGo_aliens (s.alien_animation.map animStepA) s.num_bullets
    s.bullets s.num_bullets s.aliens s.score 0).2 i hd

theorem tick_num_le (s : GameState) (md : Int) (f : Bool)
    (h : s.num_bullets ≤ MAX_BULLETS) : (tick s md f).1.num_bullets ≤ MAX_BULLETS := by
  have hub := updateBulletsGo_num_le (s.alien_animation.map animStepA) s.num_bullets
    s.bullets s.num_bullets s.aliens s.score 0
  simp only [tick, fireStep, updateBullets]
  split
  · rename_i hc
    simp only
    omega
  · simp only
    omega

theorem simulate_num_le :
    ∀ (inputs : List (Int × Bool)) (s : GameState), s.num_bullets ≤ MAX_BULLETS →
      (simulate s inputs).num_bullets ≤ MAX_BULLETS := by
  intro inputs
  induction inputs with
  | nil => intro s h; exact h
  | cons p rest ih =>
    intro s h
    show (simulate ((tick s p.1 p.2).1) rest).num_bullets ≤ MAX_BULLETS
    exact ih _ (tick_num_le s p.1 p.2 h)

theorem decCounters_length (aliens : List Alien) (cs : List Nat) :
    (decCounters aliens cs).length = min aliens.length cs.length := by
  simp [decCounters]

theorem decCounters_getD :
    ∀ (aliens : List Alien) (cs : List Nat) (i : Nat), i < aliens.length → i < cs.length →
      (decCounters aliens cs).getD i 0
        = if (aliens.getD i default).type = 0 ∧ cs.getD i 0 ≠ 0
          then cs.getD i 0 - 1 else cs.getD i 0 := by
  intro aliens
  induction aliens with
  | nil => intro cs i hi; simp at hi
  | cons a as ih =>
    intro cs i hi hci
    cases cs with
    | nil => simp at hci
    | cons c cs' =>
      cases i with
      | zero => rfl
      | succ i' =>
        have h1 : i' < as.length := by simpa using hi
        have h2 : i' < cs'.length := by simpa using hci
        simpa [decCounters] using ih cs' i' h1 h2

theorem simulate_dead_countdown :
    ∀ (inputs : List (Int × Bool)) (s : GameState) (i c : Nat),
      s.death_counters.length = s.aliens.length → i < s.aliens.length →
      (s.aliens.getD i default).type = 0 → s.death_counters.getD i 0 = c →
      inputs.length ≤ c →
      (simulate s inputs).death_counters.length = (simulate s inputs).aliens.length ∧
      i < (simulate s inputs).aliens.length ∧
      ((simulate s inputs).aliens.getD i default).type = 0 ∧
      (simulate s inputs).death_counters.getD i 0 = c - inputs.length := by
  intro inputs
  induction inputs with
  | nil =>
    intro s i c hlen hi hd hc _
    exact ⟨hlen, hi, hd, by simpa [simulate] using hc⟩
  | cons p rest ih =>
    intro s i c hlen hi hd hc hk
    have hs1 : simulate s (p :: rest) = simulate (tick s p.1 p.2).1 rest := rfl
    rw [hs1]
    have hc1 : c ≠ 0 := by
      have : rest.length + 1 ≤ c := by simpa using hk
      omega
    have hlen1 : (tick s p.1 p.2).1.death_counters.length
        = (tick s p.1 p.2).1.aliens.length := by
      rw [tick_counters, tick_aliens_len, decCounters_length, hlen]
      omega
    have hi1 : i < (tick s p.1 p.2).1.aliens.length := by
      rw [tick_aliens_len]; exact hi
    have hd1 : ((tick s p.1 p.2).1.aliens.getD i default).type = 0 := by
      rw [tick_aliens_dead s p.1 p.2 i hd]; exact hd
    have hcd : (tick s p.1 p.2).1.death_counters.getD i 0 = c - 1 := by
      rw [tick_counters, decCounters_getD s.aliens s.death_counters i hi (by omega)]
      rw [if_pos ⟨hd, by omega⟩, hc]
    have hkd : rest.length ≤ c - 1 := by
      have : rest.length + 1 ≤ c := by simpa using hk
      omega
    obtain ⟨r1, r2, r3, r4⟩ := ih (tick s p.1 p.2).1 i (c - 1) hlen1 hi1 hd1 hcd hkd
    refine ⟨r1, r2, r3, ?_⟩
    rw [r4]
    simp only [List.length_cons]
    omega

theorem animStepA_iterate (a : SpriteAnimation) (h2 : a.num_frames = 2)
    (h10 : a.frame_duration = 10) (ht : a.time < 20) :
    ∀ k, animStepA^[k] a
      = ⟨a.loop, a.num_frames, a.frame_duration, (a.time + k) % 20, a.frames⟩ := by
  intro k
  induction k with
  | zero =>
    simp only [Function.iterate_zero_apply]
    have he : (a.time + 0) % 20 = a.time := by omega
    rw [he]
  | succ n ihn =>
    rw [Function.iterate_succ_apply', ihn]
    simp only [animStepA, h2, h10]
    congr 1
    split <;> omega

/-- Claim C4: for every sprite, anchor position and color,
buffer_draw_sprite writes `color` exactly to the in-bounds destination
pixels corresponding to set mask bits (characterized by `coveredBy`),
leaves the buffer dimensions unchanged, and performs no write at any
row-major index at or beyond `width * height` — out-of-bounds pixels
are silently clipped, not an error. -/
theorem buffer_draw_sprite_clips (b : Buffer) (s : Sprite) (x y c : Nat) :
    (buffer_draw_sprite b s x y c).width = b.width ∧
    (buffer_draw_sprite b s x y c).height = b.height ∧
    (∀ j, (buffer_draw_sprite b s x y c).data j
      = if coveredBy s x y b.width b.height j then c else b.data j) ∧
    (∀ j, b.width * b.height ≤ j → (buffer_draw_sprite b s x y c).data j = b.data j) := by
  obtain ⟨hw, hh, hd⟩ := draw_fold_spec s x y c (spritePixelList s) b
  refine ⟨hw, hh, hd, ?_⟩
  intro j hj
  have hcov := coveredBy_out s x y b.width b.height j hj
  have hdj := hd j
  rw [show ((spritePixelList s).any (pixelHits s x y b.width b.height j))
      = coveredBy s x y b.width b.height j from rfl] at hdj
  show (List.foldl (drawPixelStep s x y c) b (spritePixelList s)).data j = b.data j
  rw [hdj, hcov]
  simp

/-- Claim C4 witness: drawing a 1-pixel sprite into a 3x3 buffer leaves
the (far out-of-bounds) pixel index 1000 untouched. -/
theorem buffer_draw_sprite_clips_witness :
    (buffer_draw_sprite ⟨3, 3, fun _ => 0⟩ ⟨1, 1, fun _ => 1⟩ 1 1 9).data 1000
      = (⟨3, 3, fun _ => 0⟩ : Buffer).data 1000 :=
  (buffer_draw_sprite_clips ⟨3, 3, fun _ => 0⟩ ⟨1, 1, fun _ => 1⟩ 1 1 9).2.2.2 1000
    (by decide)

/-- Claim C5 counterexample: drawing the single character 'a' (code 97,
glyph index 97 - 32 = 65, outside [0, 65)) draws nothing AND leaves the
cursor where it was (here 10): the `continue` in buffer_draw_text skips
the `xp += sprite.width + 1` advance, so the cursor does NOT advance to
10 + (glyph_width + 1) = 16 as the claim states. -/
theorem draw_text_cursor_cex :
    (buffer_draw_text_go ⟨5, 7, fun _ => 1⟩ 0 1 [97] ⟨224, 256, fun _ => 0⟩ 10).2 = 10 ∧
    ¬ (buffer_draw_text_go ⟨5, 7, fun _ => 1⟩ 0 1 [97] ⟨224, 256, fun _ => 0⟩ 10).2
        = 10 + ((5 : Nat) + 1) := by
  exact ⟨rfl, by decide⟩

/-- Claim C5 (amended): buffer_draw_text maps each character to glyph
index `code_point - 32`; characters with index outside [0, 65) draw no
glyph and do NOT advance the cursor (they have no effect at all: the
drawn output equals that of the in-range subsequence), while each
in-range character draws its glyph and advances the cursor by
`glyph_width + 1`, left to right (final cursor =
`x + (glyph_width + 1) * number of in-range characters`). -/
theorem draw_text_skip_and_advance (sheet : Sprite) (y color : Nat) (text : List Int)
    (b : Buffer) (xp : Nat) :
    buffer_draw_text_go sheet y color text b xp
      = buffer_draw_text_go sheet y color (text.filter charInRange) b xp ∧
    (buffer_draw_text_go sheet y color text b xp).2
      = xp + (sheet.width + 1) * (text.filter charInRange).length ∧
    buffer_draw_text b sheet text xp y color
      = buffer_draw_text b sheet (text.filter charInRange) xp y color := by
  obtain ⟨h1, h2⟩ := draw_text_go_spec sheet y color text b xp
  refine ⟨h1, h2, ?_⟩
  unfold buffer_draw_text
  rw [h1]

/-- Claim C7: after initialization the 55 aliens laid out as 5 rows of
11 columns (row 0 at the bottom, alien at array index `row * 11 + col`)
satisfy `type = (5 - row) / 2 + 1`, hence every type lies in {A, B, C}
(1..3, never DEAD), `x = 16 * col + 20 +
(alien_death_sprite.width - first_frame_width_of_type) / 2` and
`y = 17 * row + 128`. -/
theorem alien_grid_init (r c : Nat) (hr : r < 5) (hc : c < 11) :
    initAliens.length = 55 ∧
    (initAliens.getD (r * 11 + c) default).type = (5 - r) / 2 + 1 ∧
    (1 ≤ (initAliens.getD (r * 11 + c) default).type ∧
      (initAliens.getD (r * 11 + c) default).type ≤ 3) ∧
    (initAliens.getD (r * 11 + c) default).x
      = 16 * c + 20 + (alien_death_sprite.width
          - (alien_sprites (2 * ((5 - r) / 2 + 1 - 1))).width) / 2 ∧
    (initAliens.getD (r * 11 + c) default).y = 17 * r + 128 := by
  revert hc
  revert c
  revert hr
  revert r
  decide

/-- Claim C7 witness: the grid property at row 0, column 0. -/
theorem alien_grid_init_witness :
    initAliens.length = 55 ∧ (initAliens.getD 0 default).type = (5 - 0) / 2 + 1 := by
  have h := alien_grid_init 0 0 (by decide) (by decide)
  exact ⟨h.1, h.2.1⟩

/-- Claim C9: an alien-type animation clock with `num_frames = 2` and
`frame_duration = 10` (as all three alien clocks are initialized, last
conjunct) advances `elapsed_time` by exactly 1 per tick, wrapping to 0
when it reaches `num_frames * frame_duration = 20` (so `time` after `k`
ticks is `(time + k) % 20`), the displayed frame index
`time / frame_duration` is always 0 or 1, and the clock cycles with
period exactly `num_frames * frame_duration = 20` ticks. -/
theorem animation_clock_cycles (a : SpriteAnimation) (h2 : a.num_frames = 2)
    (h10 : a.frame_duration = 10) (ht : a.time < 20) :
    (∀ k, (animStepA^[k] a).time = (a.time + k) % 20 ∧
      (animStepA^[k] a).time / (animStepA^[k] a).frame_duration ≤ 1) ∧
    animStepA^[20] a = a ∧
    (∀ a' ∈ initAnimations, a'.num_frames = 2 ∧ a'.frame_duration = 10 ∧ a'.time = 0) := by
  have hiter := animStepA_iterate a h2 h10 ht
  refine ⟨?_, ?_, ?_⟩
  · intro k
    rw [hiter k]
    refine ⟨rfl, ?_⟩
    show (a.time + k) % 20 / a.frame_duration ≤ 1
    rw [h10]
    omega
  · rw [hiter 20]
    have he : (a.time + 20) % 20 = a.time := by omega
    rw [he]
  · intro a' ha'
    fin_cases ha' <;> exact ⟨rfl, rfl, rfl⟩

/-- Claim C9 witness: the first alien clock as initialized (time 0)
returns to its initial state after exactly 20 ticks, and after 5 ticks
its elapsed time is 5. -/
theorem animation_clock_cycles_witness :
    animStepA^[20] (initAnimations.getD 0 default) = initAnimations.getD 0 default ∧
    (animStepA^[5] (initAnimations.getD 0 default)).time = 5 := by
  have h := animation_clock_cycles (initAnimations.getD 0 default)
    (by decide) (by decide) (by decide)
  refine ⟨h.2.1, ?_⟩
  rw [(h.1 5).1]
  decide

/-- Claim C3: for every prior in-range player position and EVERY value
of the move-direction accumulator, after one movement step (displacement
`2 * move_dir` in int arithmetic, then clamped) the player's x satisfies
`0 ≤ x ≤ buffer_width - player_sprite.width` (the lower bound holds
trivially since x is a size_t, modelled as Nat). -/
theorem player_clamped_in_bounds (x : Nat) (md : Int)
    (hx : x ≤ buffer_width - player_sprite.width) :
    playerMoveStep x md ≤ buffer_width - player_sprite.width := by
  unfold playerMoveStep
  simp only [show buffer_width = 224 from rfl, show player_sprite.width = 11 from rfl] at hx ⊢
  norm_num at hx
  have hb := wrap32_bounds (2 * md)
  set pmd := wrap32 (2 * md) with hpmd
  by_cases h0 : pmd = 0
  · rw [if_pos h0]; omega
  · rw [if_neg h0]
    by_cases h1 : 224 ≤ sizetAdd (x + 11) pmd
    · rw [if_pos h1]
    · rw [if_neg h1]
      by_cases h2 : (x : Int) + pmd ≤ 0
      · rw [if_pos h2]; omega
      · rw [if_neg h2]
        have hge : (0 : Int) ≤ ((x + 11 : Nat) : Int) + pmd := by push_cast; omega
        have hlt : ((x + 11 : Nat) : Int) + pmd < 18446744073709551616 := by
          push_cast; omega
        have hadd1 := sizetAdd_eq_of_range (x + 11) pmd hge hlt
        have hkey : (x : Int) + pmd < 213 := by
          have hcast : ((x + 11 : Nat) : Int) = (x : Int) + 11 := by push_cast; rfl
          rw [hcast] at hadd1
          omega
        have hge2 : (0 : Int) ≤ (x : Int) + pmd := by omega
        have hlt2 : (x : Int) + pmd < 18446744073709551616 := by omega
        have hadd2 := sizetAdd_eq_of_range x pmd hge2 hlt2
        omega

/-- Claim C3 witness: a player at the right edge moving right stays in
bounds. -/
theorem player_clamped_in_bounds_witness :
    playerMoveStep 213 1 ≤ buffer_width - player_sprite.width :=
  player_clamped_in_bounds 213 1 (by decide)

/-- Claim C1: when the collision scan reaches a non-DEAD alien whose
currently displayed animation frame's bounding box overlaps the bullet
sprite's bounding box at the bullet's position per the AABB test
(`bx < ax + aw` and `bx + bw > ax` and `by < ay + ah` and
`by + bh > ay`), the overlap test returns true and the hit is resolved:
the alien's type becomes DEAD (0), its x is shifted left by
`(alien_death_sprite.width - frame.width) / 2` to recenter under the
wider death sprite, the score increases by exactly
`10 * (4 - old_type)`, and the bullet is removed from the pool by
swap-with-last (`bullets[bi] = bullets[num - 1]; num--`).  The bounds
hypotheses (`a.type ≤ 3`, coordinates below 2^64, score headroom,
shift ≤ x) hold in every reachable game state. -/
theorem collision_resolution (anims : List SpriteAnimation) (bi : Nat) (a : Alien)
    (s : ScanState)
    (ht1 : 1 ≤ a.type) (ht3 : a.type ≤ 3)
    (hx64 : a.x < 18446744073709551616)
    (hsc : s.score + 30 < 18446744073709551616)
    (hfw : (currentAlienFrame anims a.type).width ≤ alien_death_sprite.width)
    (hsh : (alien_death_sprite.width - (currentAlienFrame anims a.type).width) / 2 ≤ a.x)
    (hov1 : (s.bullets.getD bi default).x < a.x + (currentAlienFrame anims a.type).width)
    (hov2 : (s.bullets.getD bi default).x + bullet_sprite.width > a.x)
    (hov3 : (s.bullets.getD bi default).y < a.y + (currentAlienFrame anims a.type).height)
    (hov4 : (s.bullets.getD bi default).y + bullet_sprite.height > a.y) :
    scanAliens anims bi [a] s
      = ([⟨a.x - (alien_death_sprite.width - (currentAlienFrame anims a.type).width) / 2,
           a.y, 0⟩],
         ⟨s.bullets.set bi (s.bullets.getD (s.num - 1) default), s.num - 1,
          s.score + 10 * (4 - a.type)⟩) := by
  have hovB : sprite_overlap_check bullet_sprite (s.bullets.getD bi default).x
      (s.bullets.getD bi default).y (currentAlienFrame anims a.type) a.x a.y = true := by
    simp only [sprite_overlap_check, Bool.and_eq_true, decide_eq_true_eq]
    exact ⟨⟨⟨hov1, hov2⟩, hov3⟩, hov4⟩
  have e1 : sizetSub alien_death_sprite.width (currentAlienFrame anims a.type).width
      = alien_death_sprite.width - (currentAlienFrame anims a.type).width :=
    sizetSub_eq _ _ hfw (by decide)
  have e2 : sizetSub a.x (sizetSub alien_death_sprite.width
        (currentAlienFrame anims a.type).width / 2)
      = a.x - (alien_death_sprite.width - (currentAlienFrame anims a.type).width) / 2 := by
    rw [e1]
    exact sizetSub_eq _ _ hsh hx64
  have e3 : sizetAdd s.score (10 * (4 - (a.type : Int))) = s.score + 10 * (4 - a.type) := by
    have ecast : (10 : Int) * (4 - (a.type : Int)) = ((10 * (4 - a.type) : Nat) : Int) := by
      omega
    rw [ecast, sizetAdd_nat _ _ (by omega)]
  simp only [scanAliens, resolveHit]
  rw [if_neg (show ¬ a.type = 0 by omega), hovB, if_pos rfl, e2, e3]

/-- Claim C1 witness: the spec's scenario, a bullet at (50, 200) hitting
a type-B alien at (48, 198) whose current frame is the 11x8 sprite:
the alien dies and recenters at x = 47, the score rises by 20, and the
pool shrinks by the swap-with-last removal. -/
theorem collision_resolution_witness :
    scanAliens initAnimations 0 [⟨48, 198, 2⟩] ⟨[⟨50, 200, 2⟩], 1, 0⟩
      = ([⟨47, 198, 0⟩], ⟨[⟨50, 200, 2⟩], 0, 20⟩) := by
  have h := collision_resolution initAnimations 0 ⟨48, 198, 2⟩ ⟨[⟨50, 200, 2⟩], 1, 0⟩
    (by decide) (by decide) (by decide) (by decide) (by decide) (by decide)
    (by decide) (by decide) (by decide) (by decide)
  rw [h]
  decide

/-- Claim C10: one tick of the game loop only ever writes the player's
x coordinate: player.y and player.life are unchanged by every tick, and
after any input sequence from the initial state they still hold their
initial values y = 32 and life = 3. -/
theorem player_y_life_never_change :
    (∀ (s : GameState) (md : Int) (f : Bool),
      (tick s md f).1.player.y = s.player.y ∧
      (tick s md f).1.player.life = s.player.life) ∧
    (∀ inputs : List (Int × Bool),
      (simulate initGame inputs).player.y = 32 ∧
      (simulate initGame inputs).player.life = 3) := by
  have hone : ∀ (s : GameState) (md : Int) (f : Bool),
      (tick s md f).1.player.y = s.player.y ∧
      (tick s md f).1.player.life = s.player.life := by
    intro s md f
    rw [tick_player]
    exact ⟨rfl, rfl⟩
  refine ⟨hone, ?_⟩
  have hfold : ∀ (inputs : List (Int × Bool)) (s : GameState),
      (simulate s inputs).player.y = s.player.y ∧
      (simulate s inputs).player.life = s.player.life := by
    intro inputs
    induction inputs with
    | nil => intro s; exact ⟨rfl, rfl⟩
    | cons p rest ihp =>
      intro s
      have h1 := ihp (tick s p.1 p.2).1
      have h2 := hone s p.1 p.2
      have he : simulate s (p :: rest) = simulate (tick s p.1 p.2).1 rest := rfl
      exact ⟨by rw [he, h1.1, h2.1], by rw [he, h1.2, h2.2]⟩
  intro inputs
  have h := hfold inputs initGame
  exact ⟨by rw [h.1]; rfl, by rw [h.2]; rfl⟩

/-- Claim C6: the bullet pool size never exceeds MAX_BULLETS = 128
after any sequence of ticks with fire events from the initial state;
a pending fire event with a full pool leaves the fire step a no-op
(pool unchanged); a fire event with room spawns exactly one bullet in
slot num_bullets at the player's horizontal center
(`player.x + player_sprite.width / 2`), just above the player sprite
(`player.y + player_sprite.height`), with direction +2; and the
pending-fire flag is false after every tick regardless of whether a
bullet was spawned. -/
theorem bullet_pool_bounded :
    (∀ inputs : List (Int × Bool),
      (simulate initGame inputs).num_bullets ≤ MAX_BULLETS) ∧
    (∀ (g : GameState) (f : Bool), MAX_BULLETS ≤ g.num_bullets → fireStep g f = g) ∧
    (∀ g : GameState, g.num_bullets < MAX_BULLETS →
      (fireStep g true).num_bullets = g.num_bullets + 1 ∧
      (fireStep g true).bullets = g.bullets.set g.num_bullets
        ⟨g.player.x + player_sprite.width / 2, g.player.y + player_sprite.height, 2⟩) ∧
    (∀ (s : GameState) (md : Int) (f : Bool), (tick s md f).2 = false) := by
  refine ⟨?_, ?_, ?_, ?_⟩
  · intro inputs
    exact simulate_num_le inputs initGame (by decide)
  · intro g f h
    unfold fireStep
    rw [if_neg (fun hc => absurd hc.2 (by omega))]
  · intro g h
    unfold fireStep
    rw [if_pos ⟨rfl, h⟩]
    exact ⟨rfl, rfl⟩
  · intro s md f
    rfl

/-- Claim C6 witness: firing with a full pool changes nothing; firing
from the initial (empty) pool increments the pool size. -/
theorem bullet_pool_bounded_witness :
    fireStep { initGame with num_bullets := MAX_BULLETS } true
      = { initGame with num_bullets := MAX_BULLETS } ∧
    (fireStep initGame true).num_bullets = initGame.num_bullets + 1 := by
  have h := bullet_pool_bounded
  exact ⟨h.2.1 _ true (by decide), (h.2.2.1 initGame (by decide)).1⟩

/-- Claim C8: for an alien that is DEAD with its death counter at its
initial value 10 (the state right after the transition tick: the
decrement phase runs before the collision phase, so the counter is
still 10 at the end of the tick in which the alien died), the counter
decrements exactly once per subsequent tick (after k ≤ 10 ticks it is
10 - k, for any inputs), so it reaches 0 exactly 10 ticks after the
transition; the alien stays DEAD; and once the counter is 0 the draw
loop skips the alien: removing it (and its counter) from the draw
loop's iteration changes nothing in the drawn buffer. -/
theorem death_counter_ten_ticks (s : GameState) (i : Nat) (inputs : List (Int × Bool))
    (hlen : s.death_counters.length = s.aliens.length) (hi : i < s.aliens.length)
    (hdead : (s.aliens.getD i default).type = 0)
    (hc : s.death_counters.getD i 0 = 10) (hk : inputs.length ≤ 10) :
    ((simulate s inputs).aliens.getD i default).type = 0 ∧
    (simulate s inputs).death_counters.getD i 0 = 10 - inputs.length ∧
    (inputs.length = 10 → ∀ b : Buffer,
      draw_aliens (simulate s inputs).alien_animation (simulate s inputs).aliens
          (simulate s inputs).death_counters b
        = draw_aliens (simulate s inputs).alien_animation
          ((simulate s inputs).aliens.eraseIdx i)
          ((simulate s inputs).death_counters.eraseIdx i) b) := by
  obtain ⟨r1, r2, r3, r4⟩ := simulate_dead_countdown inputs s i 10 hlen hi hdead hc hk
  refine ⟨r3, r4, ?_⟩
  intro h10 b
  apply draw_aliens_skip
  · exact r2
  · rw [r1]; exact r2
  · rw [r4, h10]

/-- Claim C8 witness: a single DEAD alien with counter 10; after ten
ticks of empty input its counter is 0 and it is still DEAD. -/
theorem death_counter_ten_ticks_witness :
    (simulate
        ⟨[], 0, [⟨20, 128, 0⟩], 0, ⟨107, 32, 3⟩, [10], initAnimations⟩
        (List.replicate 10 ((0 : Int), false))).death_counters.getD 0 0 = 0 ∧
    ((simulate
        ⟨[], 0, [⟨20, 128, 0⟩], 0, ⟨107, 32, 3⟩, [10], initAnimations⟩
        (List.replicate 10 ((0 : Int), false))).aliens.getD 0 default).type = 0 := by
  have h := death_counter_ten_ticks
    ⟨[], 0, [⟨20, 128, 0⟩], 0, ⟨107, 32, 3⟩, [10], initAnimations⟩ 0
    (List.replicate 10 ((0 : Int), false))
    (by decide) (by decide) (by decide) (by decide) (by decide)
  refine ⟨?_, h.1⟩
  rw [h.2.1]
  decide

/-- Claim C2 (amended): in a bullet-update phase during which no bullet
overlaps any live alien, every bullet present in the pool at the start
of the phase has its y advanced by its direction exactly once and is
removed (by swap-with-last) exactly when the advanced y leaves
[bullet_sprite.height, buffer_height): up to the order perturbation of
swap-with-last, the resulting pool is exactly the advanced survivors
(`keepAdv`) of the starting pool; aliens and score are untouched.  (The
original claim is false when a collision occurs: the counterexample
shows the bullet swapped into the processed slot skips its advance for
that tick.)  In particular a bullet at y = 255 with direction +2 in a
256-high buffer advances to 257 and is removed — the witness. -/
theorem bullets_advance_no_collision (anims : List SpriteAnimation) (aliens : List Alien)
    (bullets : List Bullet) (num score : Nat)
    (hlen : num ≤ bullets.length)
    (hnc : ∀ j, j < num → noHit anims aliens (advanceBullet (bullets.getD j default))) :
    (updateBullets anims bullets num aliens score).aliens = aliens ∧
    (updateBullets anims bullets num aliens score).score = score ∧
    List.Perm
      ((updateBullets anims bullets num aliens score).bullets.take
        (updateBullets anims bullets num aliens score).num)
      ((bullets.take num).filterMap keepAdv) := by
  unfold updateBullets
  obtain ⟨h1, h2, h3⟩ := updateBulletsGo_no_collision anims aliens num bullets num 0 score
    (by omega) (by omega) hlen (fun j _ hj => hnc j hj)
  refine ⟨h1, h2, ?_⟩
  have e : bullets.take 0 ++ ((bullets.drop 0).take (num - 0)).filterMap keepAdv
      = (bullets.take num).filterMap keepAdv := by
    simp
  rw [e] at h3
  exact h3

/-- Claim C2 amended witness: the spec's scenario — a single bullet at
y = 255 with direction +2 advances to 257 ≥ buffer_height and is
removed, leaving the pool empty (it overlaps no alien of the freshly
initialized grid). -/
theorem bullets_advance_no_collision_witness :
    (updateBullets initAnimations [⟨100, 255, 2⟩] 1 initAliens 0).num = 0 ∧
    (updateBullets initAnimations [⟨100, 255, 2⟩] 1 initAliens 0).aliens = initAliens ∧
    List.Perm
      ((updateBullets initAnimations [⟨100, 255, 2⟩] 1 initAliens 0).bullets.take
        (updateBullets initAnimations [⟨100, 255, 2⟩] 1 initAliens 0).num)
      ((([⟨100, 255, 2⟩] : List Bullet).take 1).filterMap keepAdv) := by
  have h := bullets_advance_no_collision initAnimations initAliens
    [⟨100, 255, 2⟩] 1 0 (by decide) (by decide)
  exact ⟨by decide, h.1, h.2.2⟩

/-- Claim C2 counterexample: pool [(25,126,+2), (100,50,+2)] against the
freshly initialized alien grid.  Bullet 0 advances to (25,128) and hits
the alien at (20,128); swap-with-last moves bullet 1 into slot 0, the
alien scan finishes, and `bi++` then skips slot 0: after the phase the
pool holds exactly the bullet (100, 50, +2) with its y NOT advanced
(50, not 52), although it neither left the buffer nor collided —
refuting "every bullet present at the start of the phase has its y
advanced by its direction exactly once". -/
theorem bullets_advance_cex :
    (updateBullets initAnimations [⟨25, 126, 2⟩, ⟨100, 50, 2⟩] 2 initAliens 0).num = 1 ∧
    (updateBullets initAnimations [⟨25, 126, 2⟩, ⟨100, 50, 2⟩] 2 initAliens 0).bullets.take
        (updateBullets initAnimations [⟨25, 126, 2⟩, ⟨100, 50, 2⟩] 2 initAliens 0).num
      = [⟨100, 50, 2⟩] ∧
    ¬ ((⟨100, 52, 2⟩ : Bullet) ∈
        (updateBullets initAnimations [⟨25, 126, 2⟩, ⟨100, 50, 2⟩] 2 initAliens 0).bullets.take
          (updateBullets initAnimations [⟨25, 126, 2⟩, ⟨100, 50, 2⟩] 2 initAliens 0).num) := by
  refine ⟨by decide, by decide, by decide⟩
